import Mathlib

/-!
Verification of the domain-radar repository against its specification.

The development shallow-embeds the three components of the program:
  * the Resolution Engine (`checker.js`, tiers EPP / RDAP / DNS),
  * the Generation Engine (`generator.js`, candidate strategies),
  * the Orchestrator round loop (`index.js`) over the persistence layer
    (`reporter.js`, the checked set and the found list).

Network effects are modelled by explicit response oracles; `Math.random`-based
shuffling is modelled by quantifying over permutations of the shuffled lists;
fallible checkpoint writes are modelled in the `Except` monad.  JavaScript
`Map` objects are modelled as insertion-ordered association lists, and the
JavaScript `Set` of checked domains as an insertion-ordered duplicate-free
list.  Numeric price amounts are modelled as rationals.
-/

namespace DomainRadar

/-! ### JavaScript `Map` model (insertion-ordered association list) -/

/-- Lookup in a JS `Map` (`m.get(k)`). -/
def mapGet? {α : Type} (m : List (String × α)) (k : String) : Option α :=
  (m.find? (fun p => p.1 == k)).map Prod.snd

/-- Key-membership in a JS `Map` (`m.has(k)`). -/
def mapHas {α : Type} (m : List (String × α)) (k : String) : Bool :=
  m.any (fun p => p.1 == k)

/-- `m.set(k, v)`: overwrite the existing binding, else append a new one. -/
def mapSet {α : Type} (m : List (String × α)) (k : String) (v : α) : List (String × α) :=
  if mapHas m k then m.map (fun p => if p.1 == k then (k, v) else p) else m ++ [(k, v)]

/-- JS `Set.add`: append the element when it is not yet present. -/
def setAdd (s : List String) (d : String) : List String :=
  if s.contains d then s else s ++ [d]

/-! ### Resolution Engine: data model (`checker.js`) -/

/-- A per-tier check result, the object literal shape produced by the tier
functions of `checker.js` (`available: true | false | null` is `Option Bool`). -/
structure CheckResult where
  method : String
  available : Option Bool
  reason : Option String := none
  note : Option String := none
  premium : Bool := false
  eppPriceAmount : Option ℚ := none
  eppPrice : Option String := none
deriving DecidableEq, Repr

/-- A verdict for one domain: the `{ domain, ...result }` spread in
`checkDomain` / `checkDomainsBatch`. -/
structure DomainResult where
  domain : String
  method : String
  available : Option Bool
  reason : Option String := none
  note : Option String := none
  premium : Bool := false
  eppPriceAmount : Option ℚ := none
  eppPrice : Option String := none
deriving DecidableEq, Repr

/-- `{ domain, ...r }`. -/
def CheckResult.withDomain (r : CheckResult) (domain : String) : DomainResult :=
  { domain := domain, method := r.method, available := r.available, reason := r.reason,
    note := r.note, premium := r.premium, eppPriceAmount := r.eppPriceAmount,
    eppPrice := r.eppPrice }

/-- The `fee` object of an EPP status entry (`fee.amount`). -/
structure EppFee where
  amount : ℚ
deriving DecidableEq, Repr

/-- One entry of the `data.status` array of the bulk EPP response. -/
structure EppEntry where
  name : String
  available : Option Bool
  reason : Option String := none
  premium : Bool := false
  fee : Option EppFee := none
deriving DecidableEq, Repr

/-- Outcome of one `fetch` against the EPP endpoint: a network/timeout error
(the `catch` branch), a non-ok HTTP status, or a parsed `data.status` array. -/
inductive EppResponse
  | netError (msg : String)
  | httpError (status : Nat)
  | ok (entries : List EppEntry)
deriving DecidableEq, Repr

/-- `parseEppEntry` of `checker.js`.  The `entry.reason ? { note: ... } : {}`
spread adds a `note` only for a truthy (present, nonempty) reason string;
`premium`/`eppPriceAmount`/`eppPrice` are set only when `entry.premium &&
entry.fee` is truthy. -/
def parseEppEntry (e : EppEntry) : CheckResult :=
  let base : CheckResult :=
    { method := "epp", available := e.available,
      note := match e.reason with
              | some s => if s = "" then none else some s
              | none => none }
  match e.fee, e.premium with
  | some fee, true =>
      { base with premium := true, eppPriceAmount := some fee.amount,
                  eppPrice := some ("$" ++ toString fee.amount ++ "/yr") }
  | _, _ => base

/-- `checkEpp` of `checker.js` for a single domain, as a function of the
response oracle. -/
def checkEpp (resp : EppResponse) (domain : String) : CheckResult :=
  match resp with
  | .netError msg => { method := "epp", available := none, reason := some msg }
  | .httpError status =>
      { method := "epp", available := none, reason := some ("HTTP " ++ toString status) }
  | .ok entries =>
      match entries.find? (fun e => e.name == domain) with
      | none => { method := "epp", available := none, reason := some "domain not in response" }
      | some e => parseEppEntry e

/-- `checkEppBatch` of `checker.js`: on a network error or a non-ok status the
empty map is returned (the caller falls back per domain); otherwise every
response entry is keyed by its `name`. -/
def checkEppBatch (resp : EppResponse) : List (String × CheckResult) :=
  match resp with
  | .netError _ => []
  | .httpError _ => []
  | .ok entries => entries.foldl (fun m e => mapSet m e.name (parseEppEntry e)) []

/-! ### Resolution Engine: RDAP tier -/

/-- Outcome of the one `fetch` of the IANA bootstrap document in
`loadBootstrap`: a parsed `services` array (lists of TLDs paired with lists of
base URLs), or any failure (network error, JSON parse error, missing field). -/
inductive BootstrapFetch
  | ok (services : List (List String × List String))
  | failure
deriving Repr

/-- The static fallback map hard-coded in the `catch` branch of
`loadBootstrap`. -/
def staticBootstrap : List (String × Option String) :=
  [("com", some "https://rdap.verisign.com/com/v1/"),
   ("net", some "https://rdap.verisign.com/net/v1/"),
   ("org", some "https://rdap.org.rdap.org/"),
   ("dev", some "https://pubapi.registry.google/rdap/"),
   ("app", some "https://pubapi.registry.google/rdap/")]

/-- `loadBootstrap` of `checker.js` (the memoisation cache elided: the function
is pure in the fetch outcome).  `urls[0]` of an empty URL list is `undefined`,
modelled by an `Option String` value.  On any failure the static default map is
installed; the function never raises. -/
def loadBootstrap (f : BootstrapFetch) : List (String × Option String) :=
  match f with
  | .failure => staticBootstrap
  | .ok services =>
      services.foldl
        (fun m p => p.1.foldl (fun m tld => mapSet m tld p.2.head?) m) []

/-- Split of a character list at a separator character: the JS
`String.prototype.split` with a one-character separator (executable model of
`domain.split('.')`). -/
def splitChar (sep : Char) : List Char → List (List Char)
  | [] => [[]]
  | c :: cs =>
      let r := splitChar sep cs
      if c = sep then [] :: r
      else
        match r with
        | [] => [[c]]
        | h :: t => (c :: h) :: t

/-- `extractTld` of `checker.js`: `domain.split('.').pop()` (the split of a
string is never empty, so `pop` is the last segment). -/
def extractTld (domain : String) : String :=
  String.mk ((splitChar '.' domain.data).getLastD [])

/-- The JSON body of a 404 RDAP response (`body.description` may be absent). -/
structure RdapBody where
  description : Option (List String) := none
deriving DecidableEq, Repr

/-- Outcome of one RDAP `fetch`: a network/timeout error, or an HTTP status
with the JSON body when it parses (`none` models a body whose `res.json()`
throws). -/
inductive RdapResponse
  | netError (msg : String)
  | resp (status : Nat) (body : Option RdapBody)
deriving Repr

/-- Does the second character list start with the first? -/
def charsStartWith : List Char → List Char → Bool
  | [], _ => true
  | _ :: _, [] => false
  | a :: as, b :: bs => (a = b) && charsStartWith as bs

/-- Does the second character list contain the first as a contiguous
segment? -/
def charsContainSub (sub : List Char) : List Char → Bool
  | [] => sub.isEmpty
  | c :: cs => charsStartWith sub (c :: cs) || charsContainSub sub cs

/-- Substring test (`String.prototype.includes`). -/
def containsSub (s sub : String) : Bool :=
  charsContainSub sub.data s.data

/-- `String.prototype.toLowerCase` (executable model over the character
data). -/
def toLowerStr (s : String) : String :=
  String.mk (s.data.map Char.toLower)

/-- The effective RDAP server for a domain: the bootstrap value when present
and truthy (`if (!server)` treats a missing key, an `undefined` value and an
empty string alike). -/
def rdapServer (bootstrap : List (String × Option String)) (domain : String) : Option String :=
  match (mapGet? bootstrap (extractTld domain)).join with
  | none => none
  | some s => if s = "" then none else some s

/-- The blocked/reserved test applied to the lowercased, space-joined
`description` of a 404 body in `checkRdap`. -/
def rdapDescTaken (desc : String) : Bool :=
  containsSub desc "blocked" || containsSub desc "reserved" || containsSub desc "not available"

/-- `checkRdap` of `checker.js`, as a function of the (already loaded)
bootstrap map and the per-domain response oracle.  Note the status taxonomy of
the source: 404 is interpreted through the body, `res.ok` (2xx) means taken,
and every other status is an inconclusive `HTTP n` result, not a taken one. -/
def checkRdap (bootstrap : List (String × Option String)) (resp : String → RdapResponse)
    (domain : String) : CheckResult :=
  match rdapServer bootstrap domain with
  | none => { method := "rdap", available := none, reason := some "no RDAP server" }
  | some _ =>
      match resp domain with
      | .netError msg => { method := "rdap", available := none, reason := some msg }
      | .resp status body =>
          if status = 404 then
            match body with
            | some b =>
                let desc := toLowerStr (String.intercalate " " (b.description.getD []))
                if rdapDescTaken desc then
                  { method := "rdap", available := some false,
                    note := b.description.map (String.intercalate "; ") }
                else
                  { method := "rdap", available := some true }
            | none => { method := "rdap", available := some true }
          else if 200 ≤ status ∧ status ≤ 299 then
            { method := "rdap", available := some false }
          else
            { method := "rdap", available := none, reason := some ("HTTP " ++ toString status) }

/-! ### Resolution Engine: DNS tier and the tiered entry points -/

/-- Outcome of `dns.resolveNs`: a record list, or a rejection with an error
code. -/
inductive DnsResponse
  | ns (records : List String)
  | err (code : String)
deriving Repr

/-- `checkDns` of `checker.js`. -/
def checkDns (resp : DnsResponse) : CheckResult :=
  match resp with
  | .ns records =>
      if records.length > 0 then { method := "dns", available := some false }
      else { method := "dns", available := none, reason := some "inconclusive" }
  | .err code =>
      if code = "ENOTFOUND" then { method := "dns", available := some true }
      else if code ≠ "ENODATA" then { method := "dns", available := none, reason := some code }
      else { method := "dns", available := none, reason := some "inconclusive" }

/-- The network world one resolution sees: the bulk EPP response, the
per-domain single EPP responses, the bootstrap fetch outcome and the per-domain
RDAP and DNS responses. -/
structure World where
  eppBatch : EppResponse
  eppSingle : String → EppResponse
  bootstrapFetch : BootstrapFetch
  rdap : String → RdapResponse
  dns : String → DnsResponse

/-- `checkDomain` of `checker.js`: EPP, then RDAP, then DNS, else the terminal
`all checks inconclusive` verdict.  Every tier converts its failures to an
inconclusive result, so the function is total. -/
def checkDomain (w : World) (domain : String) : DomainResult :=
  let epp := checkEpp (w.eppSingle domain) domain
  if epp.available ≠ none then epp.withDomain domain
  else
    let rdap := checkRdap (loadBootstrap w.bootstrapFetch) w.rdap domain
    if rdap.available ≠ none then rdap.withDomain domain
    else
      let dnsResult := checkDns (w.dns domain)
      if dnsResult.available ≠ none then
        { dnsResult.withDomain domain with
            note := some "DNS fallback — verify before purchasing" }
      else
        { domain := domain, method := "unknown", available := none,
          reason := some "all checks inconclusive" }

/-- `checkDomainsBatch` of `checker.js`: one bulk EPP call keyed into the
result map, then an individual `checkDomain` fallback for every requested
domain the bulk response did not resolve.  The `Promise.allSettled` join is
modelled directly: `checkDomain` is total, so every fallback settles fulfilled
and is keyed into the map. -/
def checkDomainsBatch (w : World) (domains : List String) : List (String × DomainResult) :=
  let eppResults := checkEppBatch w.eppBatch
  let results := eppResults.foldl (fun m p => mapSet m p.1 (p.2.withDomain p.1)) []
  let missed := domains.filter (fun d => !(mapHas results d))
  missed.foldl (fun m d => mapSet m d (checkDomain w d)) results

/-! ### Generation Engine (`generator.js`)

`shuffle` is a Fisher–Yates permutation driven by `Math.random`; it is
modelled by taking the shuffled collections (or a shuffling function) as
parameters, constrained to be permutations in the theorems. -/

/-- The `words.filter(w => w.length <= 4)` step of `wordCombos`. -/
def shortWords (words : List String) : List String :=
  words.filter (fun w => w.length ≤ 4)

/-- The pair-building nested loops of `wordCombos`: for every ordered pair of
distinct short words whose lengths sum to at most 8, push the concatenation. -/
def wordComboPairs (short : List String) : List String :=
  short.flatMap (fun a =>
    ((short.filter (fun b => (a != b) && decide (a.length + b.length ≤ 8))).map
      (fun b => a ++ b)))

/-- `wordCombos` of `generator.js`: the word list and TLD list arrive already
shuffled; the pair list is shuffled by the `shufflePairs` parameter; the
generator then yields `combo + tld` in nested-loop order. -/
def wordCombos (shuffledWords shuffledTlds : List String)
    (shufflePairs : List String → List String) : List String :=
  (shufflePairs (wordComboPairs (shortWords shuffledWords))).flatMap
    (fun combo => shuffledTlds.map (fun tld => combo ++ tld))

/-- `shortAndCatchy` of `generator.js`: every word of the (shuffled) word list
crossed with every (shuffled) TLD, in nested-loop order. -/
def shortAndCatchy (shuffledWords shuffledTlds : List String) : List String :=
  shuffledWords.flatMap (fun word => shuffledTlds.map (fun tld => word ++ tld))

/-- The `PREFIXES` constant of `generator.js` (keyword strategy). -/
def PREFIXES : List String :=
  ["get", "try", "use", "hey", "my", "go", "the", "on", "to", "we", "so", "its",
   "run", "ask", "no", "all", "be", "do", "hi", "oh", "yo", "is", "by", "up",
   "one", "new", "hot", "top", "big", "raw", "pro", "sub", "pre", "neo", "re"]

/-- The `SUFFIXES` constant of `generator.js` (keyword strategy). -/
def SUFFIXES : List String :=
  ["hq", "app", "dev", "lab", "hub", "ly", "ify", "up", "now", "ai", "io", "os",
   "run", "go", "pro", "box", "kit", "ops", "it", "er", "ed", "fy", "sy", "zy",
   "on", "an", "in", "en", "x", "z", "co", "me", "to", "db", "ui", "api", "cli",
   "net", "web", "log", "bot", "bit", "way", "max", "pod", "zen"]

/-- `keywordBased` of `generator.js`: per keyword, the bare form, then every
prefixed form, then every suffixed form, each crossed with the TLDs.  The
source reshuffles `PREFIXES` and `SUFFIXES` on every keyword iteration, so the
per-keyword shuffles are parameters indexed by the keyword. -/
def keywordBased (shuffledKeywords shuffledTlds : List String)
    (shufflePre shuffleSuf : String → List String → List String) : List String :=
  shuffledKeywords.flatMap (fun keyword =>
    shuffledTlds.map (fun tld => keyword ++ tld)
    ++ (shufflePre keyword PREFIXES).flatMap (fun pre =>
        shuffledTlds.map (fun tld => pre ++ keyword ++ tld))
    ++ (shuffleSuf keyword SUFFIXES).flatMap (fun suf =>
        shuffledTlds.map (fun tld => keyword ++ suf ++ tld)))

/-- The `NAME_PREFIXES` constant of `generator.js`; note that the source list
contains `hey` twice (first and last element). -/
def NAME_PREFIXES : List String :=
  ["hey", "ask", "get", "hi", "by", "its", "im", "the", "yo", "mr", "dr", "go",
   "oh", "am", "be", "do", "my", "so", "we", "not", "for", "sir", "pro", "hey"]

/-- The `NAME_SUFFIXES` constant of `generator.js`. -/
def NAME_SUFFIXES : List String :=
  ["hq", "dev", "lab", "code", "builds", "works", "tech", "hub", "ops", "ai",
   "app", "run", "pro", "craft", "zone", "stack", "verse", "space", "net",
   "web", "log", "box", "bot", "land", "camp", "base", "core", "lite", "max",
   "now", "xyz", "io"]

/-- `personalNames` of `generator.js`: same shape as the keyword strategy over
the personal-name list and the name prefix/suffix constants. -/
def personalNames (shuffledNames shuffledTlds : List String)
    (shufflePre shuffleSuf : String → List String → List String) : List String :=
  shuffledNames.flatMap (fun name =>
    shuffledTlds.map (fun tld => name ++ tld)
    ++ (shufflePre name NAME_PREFIXES).flatMap (fun pre =>
        shuffledTlds.map (fun tld => pre ++ name ++ tld))
    ++ (shuffleSuf name NAME_SUFFIXES).flatMap (fun suf =>
        shuffledTlds.map (fun tld => name ++ suf ++ tld)))

/-- The alphabet constant `CHARS` of `generator.js`. -/
def CHARS : List Char := "abcdefghijklmnopqrstuvwxyz".toList

/-- The cheap-TLD subset hard-coded in the 4-letter phase of `shortCombos`. -/
def CHEAP_TLDS : List String := [".dev", ".xyz", ".cool", ".lol", ".sh"]

/-- The 3-letter combination list built by the nested loops of `shortCombos`
(before its shuffle). -/
def threeLetterCombos : List String :=
  CHARS.flatMap (fun a => CHARS.flatMap (fun b => CHARS.map (fun c => String.mk [a, b, c])))

/-- The 4-letter combination list built by the nested loops of `shortCombos`
(before its shuffle). -/
def fourLetterCombos : List String :=
  CHARS.flatMap (fun a => CHARS.flatMap (fun b => CHARS.flatMap (fun c =>
    CHARS.map (fun d => String.mk [a, b, c, d]))))

/-- `shortCombos` of `generator.js`: the 3-letter phase over all TLDs, then —
unless the cheap-TLD subset of the configuration is empty, in which case the
generator returns — the 4-letter phase over the (shuffled) cheap TLDs.  The
four shuffled collections arrive as parameters. -/
def shortCombos (shuffled3 shuffledTlds cheapTlds shuffled4 : List String) : List String :=
  shuffled3.flatMap (fun combo => shuffledTlds.map (fun tld => combo ++ tld))
  ++ (if cheapTlds.isEmpty then []
      else shuffled4.flatMap (fun combo => cheapTlds.map (fun tld => combo ++ tld)))

/-- The `numbers` constant of `wordNumbers` in `generator.js`. -/
def NUMBERS : List String :=
  ["0", "1", "2", "3", "4", "5", "6", "7", "8", "9", "00", "01", "10", "11",
   "42", "69", "99", "007", "101", "123", "256", "404", "420", "500", "666",
   "777", "888", "999"]

/-- `wordNumbers` of `generator.js`: the shuffled word list is filtered to
words of length at most 5; per word, the per-word-shuffled number list crossed
with the TLDs. -/
def wordNumbers (shuffledWords shuffledTlds : List String)
    (shuffleNums : String → List String → List String) : List String :=
  (shuffledWords.filter (fun w => w.length ≤ 5)).flatMap (fun word =>
    (shuffleNums word NUMBERS).flatMap (fun num =>
      shuffledTlds.map (fun tld => word ++ num ++ tld)))

/-- The 2-letter combination list built by the nested loops of
`twoLetterDomains` (before its shuffle). -/
def twoLetterCombos : List String :=
  CHARS.flatMap (fun a => CHARS.map (fun b => String.mk [a, b]))

/-- `twoLetterDomains` of `generator.js`: the combination list and TLD list
arrive already shuffled; yields `combo + tld` in nested-loop order. -/
def twoLetterDomains (shuffledCombos shuffledTlds : List String) : List String :=
  shuffledCombos.flatMap (fun combo => shuffledTlds.map (fun tld => combo ++ tld))

/-- The strategy-activation logic of `generateDomains` in `generator.js`:
the 2-letter strategy is pushed unconditionally; `short`, `keyword`,
`personal` and `expired` gate their strategies on the configured list; the
`Word Combos` and `Word+Number` strategies are pushed unconditionally
(the source comment reads `New strategies — always enabled`). -/
def activeStrategies (strategies : List String) : List String :=
  ["2-Letter"]
  ++ (if strategies.contains "short" then ["Short & Catchy"] else [])
  ++ (if strategies.contains "keyword" then ["Keyword-Based"] else [])
  ++ (if strategies.contains "personal" then ["Alex-Themed"] else [])
  ++ (if strategies.contains "expired" then ["Short Combos"] else [])
  ++ ["Word Combos", "Word+Number"]

/-! ### Pricing collaborator (modelled from the spec)

`src` does not contain `pricing.js`; only its callers (`index.js`, importing
`formatPrice` and `isAffordable`) are present. -/

/-- Modelled from the spec: `pricing.js` is missing from the sources; the spec
says the zone price of a candidate is looked up in a configured price table with a
default fallback price for unlisted zones. -/
def priceOf (priceTable : List (String × ℚ)) (defaultPrice : ℚ) (tld : String) : ℚ :=
  (mapGet? priceTable tld).getD defaultPrice

/-- Modelled from the spec: `isAffordable` of the missing `pricing.js` — a
candidate is dropped when its zone price exceeds the configured yearly
ceiling. -/
def isAffordable (priceTable : List (String × ℚ)) (defaultPrice : ℚ)
    (tld : String) (maxPricePerYear : ℚ) : Bool :=
  priceOf priceTable defaultPrice tld ≤ maxPricePerYear

/-- Modelled from the spec: `formatPrice` of the missing `pricing.js` — a
cosmetic display string for a zone price. -/
def formatPrice (priceTable : List (String × ℚ)) (defaultPrice : ℚ) (tld : String) : String :=
  "$" ++ toString (priceOf priceTable defaultPrice tld) ++ "/yr"

/-! ### Orchestrator (`index.js`) over the persistence layer (`reporter.js`) -/

/-- The configuration fields of `config.json` that the round loop reads,
together with the spec-modelled price table of the pricing collaborator. -/
structure OrchConfig where
  maxPricePerYear : ℚ
  batchSize : Nat
  priceTable : List (String × ℚ) := []
  defaultPrice : ℚ := 0
deriving Repr

/-- One value yielded by the `generateDomains` round-robin generator. -/
structure GenItem where
  domain : String
  strategy : String
deriving DecidableEq, Repr

/-- One element of the per-round `batch` array of `index.js`. -/
structure BatchItem where
  domain : String
  strategy : String
  tld : String
deriving DecidableEq, Repr

/-- One entry of the found list (`addResult` of `reporter.js`). -/
structure FoundEntry where
  domain : String
  strategy : String
  price : String
  tld : String
  premium : Bool
  checkedAt : String
deriving DecidableEq, Repr

/-- One reporting-collaborator call made while processing verdicts. -/
inductive REvent
  | available (domain strategy price : String)
  | taken (domain : String)
  | error (domain reason : String)
  | skippedPremium (domain : String) (price : Option String)
deriving DecidableEq, Repr

/-- The orchestrator-owned mutable state: the checked set and found list of
`reporter.js`, the reporting-call log, the `saveCounter` of the periodic
checkpoint, and the index of the next checkpoint-write attempt. -/
structure OrchState where
  checked : List String
  found : List FoundEntry
  events : List REvent := []
  saveCounter : Nat := 0
  saveAttempts : Nat := 0
deriving DecidableEq, Repr

/-- `SAVE_EVERY` of `index.js`. -/
def SAVE_EVERY : Nat := 50

/-- A `saveResults` call: the oracle gives the outcome of the n-th write
attempt (`none` = success, `some e` = the write rejects with message `e`).
`index.js` never wraps `await saveResults()` in a try/catch, so a failure is
an `Except.error` of the surrounding computation. -/
def trySave (saveOracle : Nat → Option String) (st : OrchState) : Except String OrchState :=
  match saveOracle st.saveAttempts with
  | none => .ok { st with saveAttempts := st.saveAttempts + 1 }
  | some e => .error e

/-- The premium-price filter condition of `index.js`
(`result.premium && result.eppPriceAmount != null && parseFloat(...) >
config.maxPricePerYear`; when the amount is absent the filter does not
apply and the verdict falls through to the found list). -/
def premiumSkip (cfg : OrchConfig) (r : DomainResult) : Bool :=
  r.premium && (match r.eppPriceAmount with
                | some p => decide (p > cfg.maxPricePerYear)
                | none => false)

/-- The body of the per-verdict processing loop of `index.js` for one batch
item: skip items without a keyed result; otherwise mark the domain checked
and dispatch on the verdict (`available === true` with premium filtering and
an immediate save after a found entry, `false` a taken report, `null` an
inconclusive report). -/
def processOne (cfg : OrchConfig) (saveOracle : Nat → Option String)
    (results : List (String × DomainResult)) (now : String)
    (st : OrchState) (item : BatchItem) : Except String OrchState :=
  match mapGet? results item.domain with
  | none => .ok st
  | some r =>
      let st := { st with checked := setAdd st.checked item.domain }
      match r.available with
      | some true =>
          if premiumSkip cfg r then
            .ok { st with events := st.events ++ [.skippedPremium item.domain r.eppPrice] }
          else
            let price := r.eppPrice.getD (formatPrice cfg.priceTable cfg.defaultPrice item.tld)
            let tag := if r.premium then " [PREMIUM]" else ""
            let st :=
              { st with
                  events := st.events ++ [.available item.domain item.strategy (price ++ tag)],
                  found := st.found ++
                    [{ domain := item.domain, strategy := item.strategy, price := price,
                       tld := item.tld, premium := r.premium, checkedAt := now }] }
            trySave saveOracle st
      | some false => .ok { st with events := st.events ++ [.taken item.domain] }
      | none => .ok { st with events := st.events ++ [.error item.domain (r.reason.getD "unknown")] }

/-- The whole per-round result-processing loop (the `for (const {domain,
strategy, tld} of batch)` loop of `index.js`, with no stop request pending). -/
def processResults (cfg : OrchConfig) (saveOracle : Nat → Option String)
    (results : List (String × DomainResult)) (now : String)
    (st : OrchState) (batch : List BatchItem) : Except String OrchState :=
  batch.foldlM (processOne cfg saveOracle results now) st

/-- The batch-collection loop of `index.js`: pull from the generator stream
while the batch is short of `batchSize`, skipping already-checked domains and
unaffordable zones.  Returns the batch and the unconsumed rest of the
stream. -/
def collectBatch (cfg : OrchConfig) (checked : List String) :
    List GenItem → Nat → List BatchItem × List GenItem
  | stream, 0 => ([], stream)
  | [], _ + 1 => ([], [])
  | g :: rest, need + 1 =>
      if checked.contains g.domain then collectBatch cfg checked rest (need + 1)
      else
        let tld := "." ++ extractTld g.domain
        if !(isAffordable cfg.priceTable cfg.defaultPrice tld cfg.maxPricePerYear) then
          collectBatch cfg checked rest (need + 1)
        else
          let p := collectBatch cfg checked rest need
          ({ domain := g.domain, strategy := g.strategy, tld := tld } :: p.1, p.2)

/-- One iteration of the `while (!stopping)` loop of `index.js`: collect a
batch (an empty batch breaks the loop, signalled by `none`), resolve it
through the Resolution Engine oracle, process the verdicts, then run the
periodic `SAVE_EVERY` checkpoint.  Returns the new state, the dispatched
domain-name list and the remaining stream. -/
def runRound (cfg : OrchConfig) (saveOracle : Nat → Option String)
    (resolver : List String → List (String × DomainResult)) (now : String)
    (st : OrchState) (stream : List GenItem) :
    Except String (Option (OrchState × List String × List GenItem)) :=
  let p := collectBatch cfg st.checked stream cfg.batchSize
  let batch := p.1
  if batch.isEmpty then .ok none
  else do
    let domainNames := batch.map (·.domain)
    let results := resolver domainNames
    let st1 ← processResults cfg saveOracle results now st batch
    let st2 := { st1 with saveCounter := st1.saveCounter + batch.length }
    let st3 ←
      if SAVE_EVERY ≤ st2.saveCounter then do
        let s ← trySave saveOracle st2
        pure { s with saveCounter := 0 }
      else pure st2
    pure (some (st3, domainNames, p.2))

/-- The round loop of `index.js`, fuel-bounded: iterate `runRound` until the
batch comes back empty (generator exhausted) or the fuel runs out, collecting
the list of dispatched domain-name batches.  A checkpoint-write failure
anywhere propagates as `Except.error`, exactly as the uncaught rejection
propagates out of `main`. -/
def runLoop (cfg : OrchConfig) (saveOracle : Nat → Option String)
    (resolver : List String → List (String × DomainResult)) (now : String) :
    Nat → OrchState → List GenItem → Except String (OrchState × List (List String))
  | 0, st, _ => .ok (st, [])
  | fuel + 1, st, stream =>
      match runRound cfg saveOracle resolver now st stream with
      | .error e => .error e
      | .ok none => .ok (st, [])
      | .ok (some (st1, names, rest)) =>
          match runLoop cfg saveOracle resolver now fuel st1 rest with
          | .error e => .error e
          | .ok (stF, ds) => .ok (stF, names :: ds)

/-! ## Shared lemmas about the JS `Map` and `Set` models -/

lemma mapHas_mapSet_self {α : Type} (m : List (String × α)) (k : String) (v : α) :
    mapHas (mapSet m k v) k = true := by
  unfold mapSet
  split
  · next h =>
    rcases List.any_eq_true.1 h with ⟨p, hp, hpk⟩
    refine List.any_eq_true.2 ⟨(k, v), ?_, by simp⟩
    refine List.mem_map.2 ⟨p, hp, ?_⟩
    simp [hpk]
  · exact List.any_eq_true.2 ⟨(k, v), by simp, by simp⟩

lemma mapHas_mapSet_of {α : Type} (m : List (String × α)) (k : String) (v : α)
    (k' : String) (h : mapHas m k' = true) : mapHas (mapSet m k v) k' = true := by
  unfold mapSet
  rcases List.any_eq_true.1 h with ⟨p, hp, hpk'⟩
  split
  · refine List.any_eq_true.2 ⟨if p.1 == k then (k, v) else p, List.mem_map.2 ⟨p, hp, rfl⟩, ?_⟩
    by_cases hk : p.1 == k
    · have h1 : p.1 = k := by simpa using hk
      have h2 : p.1 = k' := by simpa using hpk'
      simp [hk, ← h1, h2]
    · simp [hk, hpk']
  · exact List.any_eq_true.2 ⟨p, List.mem_append_left _ hp, hpk'⟩

lemma mapHas_foldl_set_mono {α : Type} (f : String → α) :
    ∀ (l : List String) (m : List (String × α)) (d : String),
      mapHas m d = true →
      mapHas (l.foldl (fun m x => mapSet m x (f x)) m) d = true := by
  intro l
  induction l with
  | nil => intro m d h; simpa using h
  | cons x xs ih =>
      intro m d h
      simpa [List.foldl] using ih (mapSet m x (f x)) d (mapHas_mapSet_of m x (f x) d h)

lemma mapHas_foldl_set_mem {α : Type} (f : String → α) :
    ∀ (l : List String) (m : List (String × α)) (d : String),
      d ∈ l → mapHas (l.foldl (fun m x => mapSet m x (f x)) m) d = true := by
  intro l
  induction l with
  | nil => intro m d h; cases h
  | cons x xs ih =>
      intro m d h
      rcases List.mem_cons.1 h with h | h
      · subst h
        exact mapHas_foldl_set_mono f xs _ d (mapHas_mapSet_self m d (f d))
      · exact ih (mapSet m x (f x)) d h

lemma mem_setAdd_iff {s : List String} {x d : String} :
    d ∈ setAdd s x ↔ d ∈ s ∨ d = x := by
  unfold setAdd
  split
  · next h =>
    constructor
    · exact Or.inl
    · rintro (hd | rfl)
      · exact hd
      · exact List.elem_iff.1 h
  · simp

lemma setAdd_mem_of {s : List String} {d : String} (x : String) (h : d ∈ s) :
    d ∈ setAdd s x := mem_setAdd_iff.2 (Or.inl h)

/-! ## C1 — the batch entry point returns an entry for every requested name -/

/-- C1: for every finite list of requested domain names and every network
world, `checkDomainsBatch` returns a mapping with an entry keyed by each
requested name — a name the bulk tier left unresolved still receives an entry
through the per-domain `checkDomain` fallback (which is total: every tier
converts its failures into an inconclusive result). -/
theorem C1_batch_entry_total (w : World) (domains : List String) (d : String)
    (hd : d ∈ domains) :
    mapHas (checkDomainsBatch w domains) d = true := by
  unfold checkDomainsBatch
  by_cases h :
      mapHas ((checkEppBatch w.eppBatch).foldl
        (fun m p => mapSet m p.1 (p.2.withDomain p.1)) []) d
  · exact mapHas_foldl_set_mono (checkDomain w) _ _ d h
  · refine mapHas_foldl_set_mem (checkDomain w) _ _ d ?_
    rw [List.mem_filter]
    exact ⟨hd, by simp [h]⟩

/-- C1 witness: a concrete world in which the bulk tier fails outright and the
single requested domain is resolved by the fallback path. -/
def w0 : World :=
  { eppBatch := .httpError 502, eppSingle := fun _ => .netError "timeout",
    bootstrapFetch := .failure, rdap := fun _ => .netError "timeout",
    dns := fun _ => .err "SERVFAIL" }

theorem C1_batch_entry_total_witness :
    mapHas (checkDomainsBatch w0 ["ab.io"]) "ab.io" = true :=
  C1_batch_entry_total w0 ["ab.io"] "ab.io" (by simp)

/-! ## C2 — the RDAP status taxonomy -/

/-- The verdict the 404 branch of `checkRdap` derives from the response body:
`true` when the body marks the name blocked / reserved / not available. -/
def rdapBodyTaken (body : Option RdapBody) : Bool :=
  match body with
  | none => false
  | some b => rdapDescTaken (toLowerStr (String.intercalate " " (b.description.getD [])))

/-- C2 counterexample: the claim says any non-404 HTTP status yields the
verdict taken, but for a domain with a known RDAP endpoint (`.com` in the
static map) an HTTP 500 response produces an inconclusive (`available = none`)
verdict, not a taken one. -/
theorem C2_counterexample :
    rdapServer (loadBootstrap .failure) "foo.com" ≠ none ∧
    (checkRdap (loadBootstrap .failure) (fun _ => .resp 500 none) "foo.com").available
      = none := by
  exact ⟨by decide, rfl⟩

/-- C2 amended: with a known zone endpoint, a 404-style response yields
available exactly when the body does not indicate blocked/reserved; a 2xx
(`res.ok`) status yields taken; every other HTTP status yields an
inconclusive verdict (not taken); a network error yields an inconclusive
verdict; a missing endpoint mapping yields the `no RDAP server` inconclusive
verdict. -/
theorem C2_rdap_status_taxonomy (bootstrap : List (String × Option String))
    (resp : String → RdapResponse) (domain : String) :
    (rdapServer bootstrap domain = none →
        checkRdap bootstrap resp domain
          = { method := "rdap", available := none, reason := some "no RDAP server" }) ∧
    (rdapServer bootstrap domain ≠ none →
      (∀ body, resp domain = .resp 404 body →
          (checkRdap bootstrap resp domain).available = some (!(rdapBodyTaken body))) ∧
      (∀ status body, resp domain = .resp status body → status ≠ 404 →
          (checkRdap bootstrap resp domain).available
            = if 200 ≤ status ∧ status ≤ 299 then some false else none) ∧
      (∀ msg, resp domain = .netError msg →
          checkRdap bootstrap resp domain
            = { method := "rdap", available := none, reason := some msg })) := by
  constructor
  · intro hs
    simp [checkRdap, hs]
  · intro hne
    rcases hsv : rdapServer bootstrap domain with _ | server
    · exact absurd hsv hne
    refine ⟨?_, ?_, ?_⟩
    · intro body hb
      cases body with
      | none => simp [checkRdap, hsv, hb, rdapBodyTaken]
      | some b =>
          simp only [checkRdap, hsv, hb]
          by_cases ht : rdapDescTaken (toLowerStr (String.intercalate " " (b.description.getD [])))
          · simp [ht, rdapBodyTaken]
          · simp [ht, rdapBodyTaken]
    · intro status body hb hne404
      simp only [checkRdap, hsv, hb]
      rw [if_neg hne404]
      by_cases hok : 200 ≤ status ∧ status ≤ 299
      · simp [hok]
      · simp [hok]
    · intro msg hb
      simp [checkRdap, hsv, hb]

/-- C2 witness: a 404 with an unparseable body on a mapped zone is an
available verdict. -/
theorem C2_rdap_status_taxonomy_witness :
    (checkRdap (loadBootstrap .failure) (fun _ => .resp 404 none) "x.com").available
      = some true := by
  have h := ((C2_rdap_status_taxonomy (loadBootstrap .failure)
      (fun _ => .resp 404 none) "x.com").2 (by decide)).1 none rfl
  simpa [rdapBodyTaken] using h

/-! ## C3 — a failed bootstrap load degrades silently, it is not surfaced -/

/-- C3 counterexample: the claim says an unobtainable endpoint map is raised
as a distinguishable configuration-fatal error; in the code `loadBootstrap`
catches the failed dynamic load and installs the static default map, and a
domain whose zone that map does not cover simply degrades to an ordinary
per-domain `unknown` verdict (here through all three tiers to `all checks
inconclusive`) — no error is ever surfaced. -/
theorem C3_counterexample :
    loadBootstrap .failure = staticBootstrap ∧
    checkDomain
      { eppBatch := .netError "offline", eppSingle := fun _ => .netError "offline",
        bootstrapFetch := .failure, rdap := fun _ => .netError "offline",
        dns := fun _ => .err "ETIMEDOUT" } "foo.io"
      = { domain := "foo.io", method := "unknown", available := none,
          reason := some "all checks inconclusive" } :=
  ⟨rfl, by decide⟩

/-- C3 amended: when the dynamic bootstrap load fails the engine silently
substitutes the hard-coded static default map and never raises; a domain
whose zone the effective map does not cover receives the per-domain
inconclusive `no RDAP server` verdict. -/
theorem C3_bootstrap_failure_degrades (resp : String → RdapResponse) (domain : String)
    (h : rdapServer staticBootstrap domain = none) :
    loadBootstrap .failure = staticBootstrap ∧
    checkRdap (loadBootstrap .failure) resp domain
      = { method := "rdap", available := none, reason := some "no RDAP server" } := by
  refine ⟨rfl, ?_⟩
  simp [checkRdap, show rdapServer (loadBootstrap .failure) domain = none from h]

theorem C3_bootstrap_failure_degrades_witness :
    loadBootstrap .failure = staticBootstrap ∧
    checkRdap (loadBootstrap .failure) (fun _ => .resp 200 none) "foo.io"
      = { method := "rdap", available := none, reason := some "no RDAP server" } :=
  C3_bootstrap_failure_degrades (fun _ => .resp 200 none) "foo.io" (by decide)

/-! ## C4 — strategy enumeration: coverage holds, exactly-once does not -/

lemma chars_nodup : CHARS.Nodup := by decide

lemma string_append_inj {a b c d : String} (h : a ++ c = b ++ d)
    (hl : a.length = b.length) : a = b ∧ c = d := by
  have hd : a.data ++ c.data = b.data ++ d.data := by
    have := congrArg String.data h
    rwa [String.data_append, String.data_append] at this
  obtain ⟨h1, h2⟩ := List.append_inj hd hl
  exact ⟨String.ext h1, String.ext h2⟩

lemma mem_twoLetterCombos_iff {c : String} :
    c ∈ twoLetterCombos ↔ ∃ a ∈ CHARS, ∃ b ∈ CHARS, c = String.mk [a, b] := by
  simp [twoLetterCombos, List.mem_flatMap, eq_comm]

lemma mem_twoLetterCombos_length {c : String} (h : c ∈ twoLetterCombos) : c.length = 2 := by
  rcases mem_twoLetterCombos_iff.1 h with ⟨a, _, b, _, rfl⟩
  rfl

lemma twoLetterCombos_nodup : twoLetterCombos.Nodup := by
  rw [twoLetterCombos, List.nodup_flatMap]
  constructor
  · intro a _
    refine List.Nodup.map ?_ chars_nodup
    intro x y hxy
    simpa using congrArg String.data hxy
  · have hp : CHARS.Pairwise (fun a b => a ≠ b) := chars_nodup
    refine hp.imp ?_
    intro a b hab
    intro x hx hy
    rcases List.mem_map.1 hx with ⟨u, _, rfl⟩
    rcases List.mem_map.1 hy with ⟨v, _, hv⟩
    have hdata := congrArg String.data hv
    simp at hdata
    exact hab (by simp [hdata.1])

lemma mem_shortWords_iff {w : List String} {a : String} :
    a ∈ shortWords w ↔ a ∈ w ∧ a.length ≤ 4 := by
  simp [shortWords, List.mem_filter]

lemma mem_wordComboPairs_iff {s : List String} {p : String} :
    p ∈ wordComboPairs s ↔
      ∃ a ∈ s, ∃ b ∈ s, a ≠ b ∧ a.length + b.length ≤ 8 ∧ p = a ++ b := by
  simp only [wordComboPairs, List.mem_flatMap, List.mem_map, List.mem_filter,
    Bool.and_eq_true, bne_iff_ne, decide_eq_true_eq]
  constructor
  · rintro ⟨a, ha, b, ⟨hb, hab, hlen⟩, rfl⟩
    exact ⟨a, ha, b, hb, hab, hlen, rfl⟩
  · rintro ⟨a, ha, b, hb, hab, hlen, rfl⟩
    exact ⟨a, ha, b, ⟨hb, hab, hlen⟩, rfl⟩

/-- A shuffled `flatMap` is a permutation of the unshuffled one. -/
lemma perm_flatMap {α β : Type} {l1 l2 : List α} {f g : α → List β}
    (h : l1.Perm l2) (hfg : ∀ a ∈ l2, (f a).Perm (g a)) :
    (l1.flatMap f).Perm (l2.flatMap g) :=
  (List.Perm.flatMap_right f h).trans (List.Perm.flatMap_left l2 hfg)

lemma wordComboPairs_perm {s1 s2 : List String} (h : s1.Perm s2) :
    (wordComboPairs s1).Perm (wordComboPairs s2) :=
  perm_flatMap h (fun _ _ => ((h.filter _).map _))

/-- C4 counterexample: the claim says no strategy ever yields a duplicate
candidate string; in fact every strategy except the 2-letter one can.  With
word list `["a", "aa"]` the two distinct ordered pairs `a + aa` and `aa + a`
both concatenate to `aaa`, so `wordCombos` yields `aaa.io` twice (the identity
shuffle is one reachable Fisher–Yates outcome, and the multiset of yields is
shuffle-invariant); `keywordBased` on keywords `go`, `pro` yields `gopro.io`
from `go + pro (suffix)` and from `(prefix) go + pro`; `shortAndCatchy` on
words `a`, `ax` with zones `x.io`, `.io` yields `ax.io` twice;
`personalNames` yields `heybob.io` twice for any name list containing `bob`
because the source `NAME_PREFIXES` constant itself lists `hey` twice;
`wordNumbers` on words `go`, `go1` yields `go10.io` from `go + 10` and
`go1 + 0`; and `shortCombos` with zones `d.dev`, `.dev` yields `abcd.dev`
in both its 3-letter and its 4-letter phase. -/
theorem C4_counterexample :
    (wordCombos ["a", "aa"] [".io"] id = ["aaa.io", "aaa.io"] ∧
     ¬ (wordCombos ["a", "aa"] [".io"] id).Nodup) ∧
    (keywordBased ["go", "pro"] [".io"] (fun _ l => l) (fun _ l => l)).count "gopro.io" = 2 ∧
    (shortAndCatchy ["a", "ax"] ["x.io", ".io"]).count "ax.io" = 2 ∧
    (personalNames ["bob"] [".io"] (fun _ l => l) (fun _ l => l)).count "heybob.io" = 2 ∧
    (wordNumbers ["go", "go1"] [".io"] (fun _ l => l)).count "go10.io" = 2 ∧
    ¬ (shortCombos threeLetterCombos ["d.dev", ".dev"] [".dev"] fourLetterCombos).Nodup := by
  refine ⟨⟨by decide, by decide⟩, by decide, by decide, by decide, by decide, ?_⟩
  intro h
  have habc : ("abc" : String) ∈ threeLetterCombos :=
    List.mem_flatMap.2 ⟨'a', by decide, List.mem_flatMap.2 ⟨'b', by decide,
      List.mem_map.2 ⟨'c', by decide, rfl⟩⟩⟩
  have habcd : ("abcd" : String) ∈ fourLetterCombos :=
    List.mem_flatMap.2 ⟨'a', by decide, List.mem_flatMap.2 ⟨'b', by decide,
      List.mem_flatMap.2 ⟨'c', by decide, List.mem_map.2 ⟨'d', by decide, rfl⟩⟩⟩⟩
  have hx1 : ("abcd.dev" : String) ∈ threeLetterCombos.flatMap
      (fun combo => (["d.dev", ".dev"] : List String).map (fun tld => combo ++ tld)) :=
    List.mem_flatMap.2 ⟨"abc", habc, List.mem_map.2 ⟨"d.dev", by decide, by decide⟩⟩
  have hx2 : ("abcd.dev" : String) ∈ fourLetterCombos.flatMap
      (fun combo => ([".dev"] : List String).map (fun tld => combo ++ tld)) :=
    List.mem_flatMap.2 ⟨"abcd", habcd, List.mem_map.2 ⟨".dev", by decide, by decide⟩⟩
  have hsplit : shortCombos threeLetterCombos ["d.dev", ".dev"] [".dev"] fourLetterCombos
      = threeLetterCombos.flatMap
          (fun combo => (["d.dev", ".dev"] : List String).map (fun tld => combo ++ tld))
        ++ fourLetterCombos.flatMap
          (fun combo => ([".dev"] : List String).map (fun tld => combo ++ tld)) := by
    simp [shortCombos]
  rw [hsplit, List.nodup_append] at h
  exact h.2.2 hx1 hx2

/-- C4 amended: for every strategy and every configuration, a full exhaustion
run yields a permutation of the nested-loop enumeration of the declared
combinatorial space of that strategy — every combination of the backing
collections is visited exactly once, with a multiset of yields independent of
the shuffles, so every member of the space is yielded; the mandatory 2-letter
strategy yields every candidate string exactly once, with no duplicate at any
prefix, for a duplicate-free zone list; but the candidate strings of every
other strategy are not deduplicated, and a string is repeated when two
distinct combinations concatenate to it (see the counterexample). -/
theorem C4_strategy_spaces
    (words keywords names tlds shW shT shK shN shC shT2 sh3 sh4 shCheap : List String)
    (shP : List String → List String)
    (kPre kSuf nPre nSuf wNums : String → List String → List String)
    (hW : shW.Perm words) (hT : shT.Perm tlds) (hK : shK.Perm keywords)
    (hN : shN.Perm names) (hC : shC.Perm twoLetterCombos) (hT2 : shT2.Perm tlds)
    (h3 : sh3.Perm threeLetterCombos) (h4 : sh4.Perm fourLetterCombos)
    (hCh : shCheap.Perm (tlds.filter (fun t => CHEAP_TLDS.contains t)))
    (hP : ∀ l, (shP l).Perm l)
    (hkPre : ∀ k l, (kPre k l).Perm l) (hkSuf : ∀ k l, (kSuf k l).Perm l)
    (hnPre : ∀ k l, (nPre k l).Perm l) (hnSuf : ∀ k l, (nSuf k l).Perm l)
    (hwN : ∀ k l, (wNums k l).Perm l)
    (hTn : tlds.Nodup) :
    (shortAndCatchy shW shT).Perm (shortAndCatchy words tlds) ∧
    (keywordBased shK shT kPre kSuf).Perm
      (keywordBased keywords tlds (fun _ l => l) (fun _ l => l)) ∧
    (personalNames shN shT nPre nSuf).Perm
      (personalNames names tlds (fun _ l => l) (fun _ l => l)) ∧
    (shortCombos sh3 shT shCheap sh4).Perm
      (shortCombos threeLetterCombos tlds
        (tlds.filter (fun t => CHEAP_TLDS.contains t)) fourLetterCombos) ∧
    (wordCombos shW shT shP).Perm (wordCombos words tlds id) ∧
    (wordNumbers shW shT wNums).Perm (wordNumbers words tlds (fun _ l => l)) ∧
    (twoLetterDomains shC shT2).Perm (twoLetterDomains twoLetterCombos tlds) ∧
    (twoLetterDomains shC shT2).Nodup ∧
    (∀ c ∈ twoLetterCombos, ∀ t ∈ tlds, (c ++ t) ∈ twoLetterDomains shC shT2) ∧
    (∀ p ∈ wordComboPairs (shortWords words), ∀ t ∈ tlds,
        (p ++ t) ∈ wordCombos shW shT shP) ∧
    (∀ k ∈ keywords, ∀ t ∈ tlds,
        (k ++ t) ∈ keywordBased shK shT kPre kSuf ∧
        (∀ pre ∈ PREFIXES, (pre ++ k ++ t) ∈ keywordBased shK shT kPre kSuf) ∧
        (∀ suf ∈ SUFFIXES, (k ++ suf ++ t) ∈ keywordBased shK shT kPre kSuf)) := by
  refine ⟨?_, ?_, ?_, ?_, ?_, ?_, ?_, ?_, ?_, ?_, ?_⟩
  · exact perm_flatMap hW (fun w _ => hT.map _)
  · exact perm_flatMap hK (fun k _ =>
      (((hT.map _).append
          (perm_flatMap (hkPre k PREFIXES) (fun _ _ => hT.map _))).append
        (perm_flatMap (hkSuf k SUFFIXES) (fun _ _ => hT.map _))))
  · exact perm_flatMap hN (fun n _ =>
      (((hT.map _).append
          (perm_flatMap (hnPre n NAME_PREFIXES) (fun _ _ => hT.map _))).append
        (perm_flatMap (hnSuf n NAME_SUFFIXES) (fun _ _ => hT.map _))))
  · refine List.Perm.append (perm_flatMap h3 (fun c _ => hT.map _)) ?_
    by_cases hnil : tlds.filter (fun t => CHEAP_TLDS.contains t) = []
    · have hsc : shCheap = [] := List.Perm.eq_nil (hnil ▸ hCh)
      rw [hsc, hnil]
      simp
    · have hsc : shCheap ≠ [] := by
        intro he
        exact hnil (List.Perm.eq_nil (he ▸ hCh).symm)
      rw [if_neg (by simpa [List.isEmpty_iff] using hsc),
          if_neg (by simpa [List.isEmpty_iff] using hnil)]
      exact perm_flatMap h4 (fun c _ => hCh.map _)
  · exact perm_flatMap ((hP _).trans (wordComboPairs_perm (hW.filter _)))
      (fun p _ => hT.map _)
  · exact perm_flatMap (hW.filter _) (fun w _ =>
      perm_flatMap (hwN w NUMBERS) (fun n _ => hT.map _))
  · exact perm_flatMap hC (fun c _ => hT2.map _)
  · have hCnd : shC.Nodup := hC.nodup_iff.2 twoLetterCombos_nodup
    have hTnd : shT2.Nodup := hT2.nodup_iff.2 hTn
    have hlen2 : ∀ c ∈ shC, c.length = 2 := fun c hc =>
      mem_twoLetterCombos_length (hC.mem_iff.1 hc)
    rw [twoLetterDomains, List.nodup_flatMap]
    constructor
    · intro c _
      refine List.Nodup.map ?_ hTnd
      intro x y hxy
      exact (string_append_inj hxy rfl).2
    · have hp : shC.Pairwise (fun a b => a ≠ b) := hCnd
      refine List.Pairwise.imp_of_mem ?_ hp
      intro a b ha hb hab
      intro x hx hy
      rcases List.mem_map.1 hx with ⟨u, _, rfl⟩
      rcases List.mem_map.1 hy with ⟨v, _, hv⟩
      exact hab (string_append_inj hv.symm ((hlen2 a ha).trans (hlen2 b hb).symm)).1
  · intro c hc t ht
    exact List.mem_flatMap.2
      ⟨c, hC.mem_iff.2 hc, List.mem_map.2 ⟨t, hT2.mem_iff.2 ht, rfl⟩⟩
  · intro p hp t ht
    have hp1 : p ∈ wordComboPairs (shortWords shW) := by
      rcases mem_wordComboPairs_iff.1 hp with ⟨a, ha, b, hb, hab, hlen, rfl⟩
      refine mem_wordComboPairs_iff.2 ⟨a, ?_, b, ?_, hab, hlen, rfl⟩
      · rw [mem_shortWords_iff] at ha ⊢
        exact ⟨hW.mem_iff.2 ha.1, ha.2⟩
      · rw [mem_shortWords_iff] at hb ⊢
        exact ⟨hW.mem_iff.2 hb.1, hb.2⟩
    have hp2 : p ∈ shP (wordComboPairs (shortWords shW)) := ((hP _).mem_iff).2 hp1
    have ht2 : t ∈ shT := hT.mem_iff.2 ht
    exact List.mem_flatMap.2 ⟨p, hp2, List.mem_map.2 ⟨t, ht2, rfl⟩⟩
  · intro k hk t ht
    have hk2 : k ∈ shK := hK.mem_iff.2 hk
    have ht2 : t ∈ shT := hT.mem_iff.2 ht
    refine ⟨?_, ?_, ?_⟩
    · exact List.mem_flatMap.2 ⟨k, hk2,
        List.mem_append_left _ (List.mem_append_left _
          (List.mem_map.2 ⟨t, ht2, rfl⟩))⟩
    · intro pre hpre
      refine List.mem_flatMap.2 ⟨k, hk2,
        List.mem_append_left _ (List.mem_append_right _
          (List.mem_flatMap.2 ⟨pre, ((hkPre k PREFIXES).mem_iff).2 hpre,
            List.mem_map.2 ⟨t, ht2, rfl⟩⟩))⟩
    · intro suf hsuf
      refine List.mem_flatMap.2 ⟨k, hk2,
        List.mem_append_right _
          (List.mem_flatMap.2 ⟨suf, ((hkSuf k SUFFIXES).mem_iff).2 hsuf,
            List.mem_map.2 ⟨t, ht2, rfl⟩⟩)⟩

theorem C4_strategy_spaces_witness :
    ([".io"] : List String).Nodup ∧
    ([] : List String).Perm ([".io"].filter (fun t => CHEAP_TLDS.contains t)) ∧
    ((shortAndCatchy ["cat", "dog"] [".io"]).Perm (shortAndCatchy ["cat", "dog"] [".io"]) ∧
     (keywordBased ["go"] [".io"] (fun _ l => l) (fun _ l => l)).Perm
       (keywordBased ["go"] [".io"] (fun _ l => l) (fun _ l => l)) ∧
     (personalNames ["bob"] [".io"] (fun _ l => l) (fun _ l => l)).Perm
       (personalNames ["bob"] [".io"] (fun _ l => l) (fun _ l => l)) ∧
     (shortCombos threeLetterCombos [".io"] [] fourLetterCombos).Perm
       (shortCombos threeLetterCombos [".io"]
         ([".io"].filter (fun t => CHEAP_TLDS.contains t)) fourLetterCombos) ∧
     (wordCombos ["cat", "dog"] [".io"] id).Perm (wordCombos ["cat", "dog"] [".io"] id) ∧
     (wordNumbers ["cat", "dog"] [".io"] (fun _ l => l)).Perm
       (wordNumbers ["cat", "dog"] [".io"] (fun _ l => l)) ∧
     (twoLetterDomains twoLetterCombos [".io"]).Perm
       (twoLetterDomains twoLetterCombos [".io"]) ∧
     (twoLetterDomains twoLetterCombos [".io"]).Nodup ∧
     (∀ c ∈ twoLetterCombos, ∀ t ∈ [".io"],
         (c ++ t) ∈ twoLetterDomains twoLetterCombos [".io"]) ∧
     (∀ p ∈ wordComboPairs (shortWords ["cat", "dog"]), ∀ t ∈ [".io"],
         (p ++ t) ∈ wordCombos ["cat", "dog"] [".io"] id) ∧
     (∀ k ∈ ["go"], ∀ t ∈ [".io"],
         (k ++ t) ∈ keywordBased ["go"] [".io"] (fun _ l => l) (fun _ l => l) ∧
         (∀ pre ∈ PREFIXES,
             (pre ++ k ++ t) ∈ keywordBased ["go"] [".io"] (fun _ l => l) (fun _ l => l)) ∧
         (∀ suf ∈ SUFFIXES,
             (k ++ suf ++ t) ∈ keywordBased ["go"] [".io"] (fun _ l => l) (fun _ l => l)))) :=
  ⟨by decide, by decide,
   C4_strategy_spaces ["cat", "dog"] ["go"] ["bob"] [".io"]
     ["cat", "dog"] [".io"] ["go"] ["bob"] twoLetterCombos [".io"]
     threeLetterCombos fourLetterCombos [] id
     (fun _ l => l) (fun _ l => l) (fun _ l => l) (fun _ l => l) (fun _ l => l)
     (List.Perm.refl _) (List.Perm.refl _) (List.Perm.refl _) (List.Perm.refl _)
     (List.Perm.refl _) (List.Perm.refl _) (List.Perm.refl _) (List.Perm.refl _)
     (by decide) (fun _ => List.Perm.refl _)
     (fun _ _ => List.Perm.refl _) (fun _ _ => List.Perm.refl _)
     (fun _ _ => List.Perm.refl _) (fun _ _ => List.Perm.refl _)
     (fun _ _ => List.Perm.refl _) (by decide)⟩

/-! ## C5 — strategy activation -/

/-- C5 counterexample: the claim says every strategy other than the mandatory
2-letter one is active only when named in the configured strategy set, but
with the empty configuration the `Word Combos` strategy is active (as is
`Word+Number`): the code pushes both unconditionally. -/
theorem C5_counterexample :
    "Word Combos" ∈ activeStrategies [] ∧
    "Word Combos" ∉ ([] : List String) ∧
    "Word Combos" ≠ "2-Letter" := by
  refine ⟨by decide, by simp, by decide⟩

/-- C5 amended: the 2-letter strategy is always active, and so are the
`Word Combos` and `Word+Number` strategies; the `short`, `keyword`,
`personal` and `expired` strategies are active exactly when named in the
configured strategy set. -/
theorem C5_active_strategies (strategies : List String) :
    "2-Letter" ∈ activeStrategies strategies ∧
    "Word Combos" ∈ activeStrategies strategies ∧
    "Word+Number" ∈ activeStrategies strategies ∧
    ("Short & Catchy" ∈ activeStrategies strategies ↔ strategies.contains "short" = true) ∧
    ("Keyword-Based" ∈ activeStrategies strategies ↔ strategies.contains "keyword" = true) ∧
    ("Alex-Themed" ∈ activeStrategies strategies ↔ strategies.contains "personal" = true) ∧
    ("Short Combos" ∈ activeStrategies strategies ↔ strategies.contains "expired" = true) := by
  unfold activeStrategies
  cases h1 : strategies.contains "short" <;> cases h2 : strategies.contains "keyword" <;>
    cases h3 : strategies.contains "personal" <;> cases h4 : strategies.contains "expired" <;>
    simp

/-! ## Orchestrator lemmas shared by C6, C7, C8, C9 and C10 -/

lemma trySave_ok {so : Nat → Option String} {st st' : OrchState}
    (h : trySave so st = .ok st') :
    st'.checked = st.checked ∧ st'.found = st.found := by
  unfold trySave at h
  rcases hs : so st.saveAttempts with _ | e
  · rw [hs] at h
    cases h
    exact ⟨rfl, rfl⟩
  · rw [hs] at h
    cases h

lemma processOne_checked_mono {cfg : OrchConfig} {so : Nat → Option String}
    {results : List (String × DomainResult)} {now : String}
    {st : OrchState} {item : BatchItem} {st' : OrchState}
    (h : processOne cfg so results now st item = .ok st') :
    ∀ d ∈ st.checked, d ∈ st'.checked := by
  intro d hd
  unfold processOne at h
  split at h
  · cases h
    exact hd
  · split at h
    · split at h
      · cases h
        exact setAdd_mem_of _ hd
      · rw [(trySave_ok h).1]
        exact setAdd_mem_of _ hd
    · cases h
      exact setAdd_mem_of _ hd
    · cases h
      exact setAdd_mem_of _ hd

lemma processResults_checked_mono {cfg : OrchConfig} {so : Nat → Option String}
    {results : List (String × DomainResult)} {now : String} :
    ∀ (batch : List BatchItem) (st st' : OrchState),
      processResults cfg so results now st batch = .ok st' →
      ∀ d ∈ st.checked, d ∈ st'.checked := by
  intro batch
  induction batch with
  | nil =>
      intro st st' h d hd
      unfold processResults at h
      simp only [List.foldlM_nil] at h
      exact Except.ok.inj h ▸ hd
  | cons i is ih =>
      intro st st' h d hd
      unfold processResults at h
      rw [List.foldlM_cons] at h
      rcases hp : processOne cfg so results now st i with e | st1
      · rw [hp] at h
        cases h
      · rw [hp] at h
        exact ih st1 st' h d (processOne_checked_mono hp d hd)

lemma processOne_marks {cfg : OrchConfig} {so : Nat → Option String}
    {results : List (String × DomainResult)} {now : String}
    {st : OrchState} {item : BatchItem} {st' : OrchState}
    (h : processOne cfg so results now st item = .ok st')
    (hsome : (mapGet? results item.domain).isSome = true) :
    item.domain ∈ st'.checked := by
  unfold processOne at h
  split at h
  · next hm =>
      rw [hm] at hsome
      cases hsome
  · next r hm =>
      have hchk : st'.checked = setAdd st.checked item.domain := by
        split at h
        · split at h
          · cases h
            rfl
          · exact (trySave_ok h).1
        · cases h
          rfl
        · cases h
          rfl
      rw [hchk]
      exact mem_setAdd_iff.2 (Or.inr rfl)

lemma processResults_marks {cfg : OrchConfig} {so : Nat → Option String}
    {results : List (String × DomainResult)} {now : String} :
    ∀ (batch : List BatchItem) (st st' : OrchState),
      processResults cfg so results now st batch = .ok st' →
      ∀ item ∈ batch, (mapGet? results item.domain).isSome = true →
        item.domain ∈ st'.checked := by
  intro batch
  induction batch with
  | nil =>
      intro st st' h item hitem hsome
      cases hitem
  | cons i is ih =>
      intro st st' h item hitem hsome
      unfold processResults at h
      rw [List.foldlM_cons] at h
      rcases hp : processOne cfg so results now st i with e | st1
      · rw [hp] at h
        cases h
      · rw [hp] at h
        rcases List.mem_cons.1 hitem with rfl | hmem
        · exact processResults_checked_mono is st1 st' h _ (processOne_marks hp hsome)
        · exact ih st1 st' h item hmem hsome

lemma collectBatch_not_checked {cfg : OrchConfig} {checked : List String} :
    ∀ (stream : List GenItem) (need : Nat) (item : BatchItem),
      item ∈ (collectBatch cfg checked stream need).1 →
      checked.contains item.domain = false := by
  intro stream
  induction stream with
  | nil =>
      intro need item h
      cases need <;> simp [collectBatch] at h
  | cons g rest ih =>
      intro need item h
      cases need with
      | zero => simp [collectBatch] at h
      | succ k =>
          rw [collectBatch] at h
          by_cases hc : checked.contains g.domain
          · rw [if_pos hc] at h
            exact ih _ item h
          · rw [if_neg hc] at h
            by_cases haf : isAffordable cfg.priceTable cfg.defaultPrice
                ("." ++ extractTld g.domain) cfg.maxPricePerYear
            · rw [if_neg (by simp [haf])] at h
              rcases List.mem_cons.1 h with rfl | h
              · exact Bool.not_eq_true _ ▸ (by simpa using hc)
              · exact ih _ item h
            · rw [if_pos (by simp [haf])] at h
              exact ih _ item h

lemma runRound_ok {cfg : OrchConfig} {so : Nat → Option String}
    {resolver : List String → List (String × DomainResult)} {now : String}
    {st : OrchState} {stream : List GenItem} {st1 : OrchState}
    {names : List String} {rest : List GenItem}
    (h : runRound cfg so resolver now st stream = .ok (some (st1, names, rest))) :
    (∀ d ∈ st.checked, d ∈ st1.checked) ∧ (∀ d ∈ st.checked, d ∉ names) ∧
    ((∀ d ∈ names, (mapGet? (resolver names) d).isSome = true) →
      ∀ d ∈ names, d ∈ st1.checked) := by
  have hnames : ∀ d ∈ st.checked, d ∉
      (collectBatch cfg st.checked stream cfg.batchSize).1.map (fun b => b.domain) := by
    intro d hd hmem
    rcases List.mem_map.1 hmem with ⟨item, hitem, rfl⟩
    have htrue : st.checked.contains item.domain = true := List.elem_iff.2 hd
    rw [collectBatch_not_checked _ _ _ hitem] at htrue
    cases htrue
  unfold runRound at h
  by_cases hb : (collectBatch cfg st.checked stream cfg.batchSize).1.isEmpty
  · rw [if_pos hb] at h
    cases h
  · rw [if_neg hb] at h
    simp only [bind, Except.bind, pure, Except.pure] at h
    split at h
    · cases h
    · next stA hpr =>
        have hmonoA : ∀ d ∈ st.checked, d ∈ stA.checked :=
          processResults_checked_mono _ _ _ hpr
        have hmarksA : ∀ item ∈ (collectBatch cfg st.checked stream cfg.batchSize).1,
            (mapGet? (resolver
              ((collectBatch cfg st.checked stream cfg.batchSize).1.map
                (fun b => b.domain))) item.domain).isSome = true →
            item.domain ∈ stA.checked :=
          fun item hitem hsome => processResults_marks _ _ _ hpr item hitem hsome
        split at h
        · split at h
          · cases h
          · next sB hts =>
              have hinj := Option.some.inj (Except.ok.inj h)
              simp only [Prod.mk.injEq] at hinj
              obtain ⟨h1, h2, _⟩ := hinj
              have hchk : st1.checked = stA.checked := by
                rw [← h1]
                exact (trySave_ok hts).1
              refine ⟨?_, ?_, ?_⟩
              · intro d hd
                rw [hchk]
                exact hmonoA d hd
              · intro d hd
                rw [← h2]
                exact hnames d hd
              · intro htot d hd
                rw [← h2] at htot hd
                rcases List.mem_map.1 hd with ⟨item, hitem, rfl⟩
                rw [hchk]
                exact hmarksA item hitem (htot _ hd)
        · have hinj := Option.some.inj (Except.ok.inj h)
          simp only [Prod.mk.injEq] at hinj
          obtain ⟨h1, h2, _⟩ := hinj
          have hchk : st1.checked = stA.checked := by
            rw [← h1]
          refine ⟨?_, ?_, ?_⟩
          · intro d hd
            rw [hchk]
            exact hmonoA d hd
          · intro d hd
            rw [← h2]
            exact hnames d hd
          · intro htot d hd
            rw [← h2] at htot hd
            rcases List.mem_map.1 hd with ⟨item, hitem, rfl⟩
            rw [hchk]
            exact hmarksA item hitem (htot _ hd)

/-! ## C6 — duplicate FoundRegistry entries -/

/-- A save oracle whose writes always succeed. -/
def okSaves : Nat → Option String := fun _ => none

/-- A save oracle whose writes always fail. -/
def badSaves : Nat → Option String := fun _ => some "EACCES: permission denied"

/-- An available, non-premium verdict for a domain. -/
def availTrue (d : String) : DomainResult :=
  { domain := d, method := "epp", available := some true }

def emptyState : OrchState := { checked := [], found := [] }

def cfgC6 : OrchConfig := { maxPricePerYear := 50, batchSize := 2 }

def cfgBatch1 : OrchConfig := { maxPricePerYear := 50, batchSize := 1 }

def itemAaa : BatchItem := { domain := "aaa.io", strategy := "Word Combos", tld := ".io" }

def itemAb : BatchItem := { domain := "ab.io", strategy := "2-Letter", tld := ".io" }

/-- C6: the FoundRegistry uniqueness invariant is violated by the code.  When
the batch of one round carries the same domain twice (the generator can emit
duplicates, see the `wordCombos` counterexample) and the verdict is
available, the per-verdict loop looks the shared result up twice and appends
two found entries for the same domain — the processing loop never consults
`wasChecked`, and `markChecked` does not guard `addResult`. -/
theorem C6_duplicate_found :
    ((processResults cfgC6 okSaves [("aaa.io", availTrue "aaa.io")] "t0" emptyState
        [itemAaa, itemAaa]).toOption.map (fun st => st.found.map (fun f => f.domain)))
      = some ["aaa.io", "aaa.io"] ∧
    ¬ (["aaa.io", "aaa.io"] : List String).Nodup :=
  ⟨by decide, by decide⟩

/-! ## C7 — re-dispatch of a domain, checked-set monotonicity -/

/-- A network world whose bulk EPP tier reports `ab.io` available. -/
def wAvail : World :=
  { eppBatch := .ok [{ name := "ab.io", available := some true }],
    eppSingle := fun _ => .netError "offline",
    bootstrapFetch := .failure, rdap := fun _ => .netError "offline",
    dns := fun _ => .err "ENOTFOUND" }

/-- C7 counterexample: a domain is submitted to the Resolution Engine twice
within one run — by the real batch entry point `checkDomainsBatch`.  The
stream yields `ab.io` from two strategies back to back; the batch-collection
loop consults `wasChecked` only against the state at collection time (nothing
is marked until the round settles), so both copies enter the same batch and
the single dispatched domain-name list carries `ab.io` twice. -/
theorem C7_counterexample :
    ((runLoop cfgC6 okSaves (checkDomainsBatch wAvail) "t0" 2 emptyState
        [{ domain := "ab.io", strategy := "2-Letter" },
         { domain := "ab.io", strategy := "Word Combos" }]).toOption.map
      (fun p => p.2)) = some [["ab.io", "ab.io"]] := by decide

/-- C7 amended: the checked set is monotonically non-decreasing across the
whole round loop; a domain present in the checked set is never part of any
later dispatched batch; and, when every dispatched domain receives a keyed
verdict (which the batch entry point guarantees, C1), no two distinct
dispatches of the run carry the same domain — the only remaining
double-submission is a single dispatch carrying an intra-batch duplicate
emitted by the generator (the counterexample). -/
theorem C7_checked_monotone (cfg : OrchConfig) (so : Nat → Option String)
    (resolver : List String → List (String × DomainResult)) (now : String) :
    ∀ (fuel : Nat) (st : OrchState) (stream : List GenItem) (stF : OrchState)
      (ds : List (List String)),
      runLoop cfg so resolver now fuel st stream = .ok (stF, ds) →
      (∀ d ∈ st.checked, d ∈ stF.checked) ∧
      (∀ d ∈ st.checked, ∀ names ∈ ds, d ∉ names) ∧
      ((∀ names d, d ∈ names → (mapGet? (resolver names) d).isSome = true) →
        List.Pairwise (fun n1 n2 => ∀ d, d ∈ n1 → d ∉ n2) ds) := by
  intro fuel
  induction fuel with
  | zero =>
      intro st stream stF ds h
      have hinj := Except.ok.inj h
      simp only [Prod.mk.injEq] at hinj
      obtain ⟨h1, h2⟩ := hinj
      subst h1
      subst h2
      exact ⟨fun d hd => hd, by simp, fun _ => List.Pairwise.nil⟩
  | succ n ih =>
      intro st stream stF ds h
      rw [runLoop] at h
      split at h
      · cases h
      · next heq =>
          have hinj := Except.ok.inj h
          simp only [Prod.mk.injEq] at hinj
          obtain ⟨h1, h2⟩ := hinj
          subst h1
          subst h2
          exact ⟨fun d hd => hd, by simp, fun _ => List.Pairwise.nil⟩
      · next st1 names rest heq =>
          split at h
          · cases h
          · next stF2 ds2 heq2 =>
              have hinj := Except.ok.inj h
              simp only [Prod.mk.injEq] at hinj
              obtain ⟨h1, h2⟩ := hinj
              subst h1
              subst h2
              obtain ⟨hmono1, hnames1, hmarks1⟩ := runRound_ok heq
              obtain ⟨hmono2, hnames2, hpair2⟩ := ih st1 rest stF2 ds2 heq2
              refine ⟨fun d hd => hmono2 d (hmono1 d hd), ?_, ?_⟩
              · intro d hd ns hns
                rcases List.mem_cons.1 hns with rfl | hns
                · exact hnames1 d hd
                · exact hnames2 d (hmono1 d hd) ns hns
              · intro htot
                refine List.pairwise_cons.2 ⟨?_, hpair2 htot⟩
                intro n2 hn2 d hd
                have hd1 : d ∈ st1.checked :=
                  hmarks1 (fun d2 hd2 => htot names d2 hd2) d hd
                exact hnames2 d hd1 n2 hn2

def stZZ : OrchState := { checked := ["zz.io"], found := [] }

/-- A resolver that returns an available verdict keyed for every requested
name (total, like `checkDomainsBatch`). -/
def rTotal : List String → List (String × DomainResult) :=
  fun names => names.map (fun d => (d, availTrue d))

/-- The state after one round of the witness run below. -/
def stW7 : OrchState :=
  { checked := ["zz.io", "ab.io"],
    found := [{ domain := "ab.io", strategy := "2-Letter", price := "$0/yr",
                tld := ".io", premium := false, checkedAt := "t0" }],
    events := [.available "ab.io" "2-Letter" "$0/yr"],
    saveCounter := 1, saveAttempts := 1 }

theorem C7_checked_monotone_witness :
    runLoop cfgBatch1 okSaves rTotal "t0" 1 stZZ
        [{ domain := "ab.io", strategy := "2-Letter" }] = .ok (stW7, [["ab.io"]]) ∧
    ((∀ d ∈ stZZ.checked, d ∈ stW7.checked) ∧
     (∀ d ∈ stZZ.checked, ∀ names ∈ [["ab.io"]], d ∉ names) ∧
     ((∀ names d, d ∈ names → (mapGet? (rTotal names) d).isSome = true) →
       List.Pairwise (fun n1 n2 => ∀ d, d ∈ n1 → d ∉ n2) [["ab.io"]])) :=
  ⟨by rfl,
   C7_checked_monotone cfgBatch1 okSaves rTotal "t0" 1 stZZ
     [{ domain := "ab.io", strategy := "2-Letter" }] stW7 [["ab.io"]] (by rfl)⟩

/-! ## C8 — a checkpoint-write failure aborts the run -/

/-- C8 counterexample: the claim says a failed checkpoint write is logged and
the run continues; in the code no `saveResults` call is wrapped in a
try/catch, so the rejection propagates out of the round loop (to the
top-level `main().catch`, which exits the process): the whole loop evaluates
to the error, the run does not continue. -/
theorem C8_counterexample :
    runLoop cfgBatch1 badSaves (fun names => names.map (fun d => (d, availTrue d))) "t0" 3
        emptyState [{ domain := "ab.io", strategy := "2-Letter" }]
      = .error "EACCES: permission denied" := by rfl

/-- C8 amended: a checkpoint-write failure is not caught by the round loop —
whenever processing a verdict appends a found entry and the following
immediate `saveResults` write fails, the whole round processing evaluates to
that error (which the top-level handler turns into a logged, non-zero process
exit) instead of continuing. -/
theorem C8_save_failure_aborts (cfg : OrchConfig) (so : Nat → Option String)
    (results : List (String × DomainResult)) (now : String) (st : OrchState)
    (item : BatchItem) (r : DomainResult) (e : String)
    (hr : mapGet? results item.domain = some r)
    (ha : r.available = some true)
    (hps : premiumSkip cfg r = false)
    (hsave : so st.saveAttempts = some e) :
    processResults cfg so results now st [item] = .error e := by
  have hone : processOne cfg so results now st item = .error e := by
    simp [processOne, hr, ha, hps, trySave, hsave]
  unfold processResults
  rw [List.foldlM_cons, hone]
  rfl

theorem C8_save_failure_aborts_witness :
    processResults cfgBatch1 badSaves [("ab.io", availTrue "ab.io")] "t0" emptyState [itemAb]
      = .error "EACCES: permission denied" :=
  C8_save_failure_aborts cfgBatch1 badSaves [("ab.io", availTrue "ab.io")] "t0" emptyState
    itemAb (availTrue "ab.io") "EACCES: permission denied" rfl rfl rfl rfl

/-! ## C9 — premium verdicts above the ceiling are skipped -/

/-- C9: an available verdict flagged premium with a structured price amount
strictly above the configured yearly ceiling is recorded as skipped-premium
and appends nothing to the found list (the domain is still marked checked). -/
theorem C9_premium_skipped (cfg : OrchConfig) (so : Nat → Option String)
    (results : List (String × DomainResult)) (now : String) (st : OrchState)
    (item : BatchItem) (r : DomainResult) (p : ℚ)
    (hr : mapGet? results item.domain = some r)
    (ha : r.available = some true)
    (hp : r.premium = true)
    (hamt : r.eppPriceAmount = some p)
    (hgt : p > cfg.maxPricePerYear) :
    processOne cfg so results now st item
      = .ok { st with checked := setAdd st.checked item.domain,
                      events := st.events ++ [.skippedPremium item.domain r.eppPrice] } := by
  have hps : premiumSkip cfg r = true := by
    simp [premiumSkip, hp, hamt, hgt]
  simp [processOne, hr, ha, hps]

def premiumVerdict : DomainResult :=
  { domain := "ab.io", method := "epp", available := some true, premium := true,
    eppPriceAmount := some 120, eppPrice := some "$120/yr" }

def cfgCeil50 : OrchConfig := { maxPricePerYear := 50, batchSize := 10 }

theorem C9_premium_skipped_witness :
    processOne cfgCeil50 okSaves [("ab.io", premiumVerdict)] "t0" emptyState itemAb
      = .ok { emptyState with
                checked := setAdd emptyState.checked itemAb.domain,
                events := emptyState.events ++
                  [.skippedPremium itemAb.domain premiumVerdict.eppPrice] } :=
  C9_premium_skipped cfgCeil50 okSaves [("ab.io", premiumVerdict)] "t0" emptyState itemAb
    premiumVerdict 120 rfl rfl rfl rfl (by decide)

/-! ## C10 — a domain without a keyed verdict is left untouched -/

/-- C10: when the batch result mapping has no entry for a dispatched domain
the processing loop `continue`s — the state (checked set, found list, events,
save counters) is wholly unchanged — and a domain enters the checked set only
when a keyed verdict was actually received for it. -/
theorem C10_unkeyed_domain_untouched (cfg : OrchConfig) (so : Nat → Option String)
    (results : List (String × DomainResult)) (now : String) (st : OrchState)
    (item : BatchItem) :
    (mapGet? results item.domain = none →
        processOne cfg so results now st item = .ok st) ∧
    (∀ st' d, processOne cfg so results now st item = .ok st' →
        d ∈ st'.checked →
        d ∈ st.checked ∨ (d = item.domain ∧ (mapGet? results item.domain).isSome = true)) := by
  constructor
  · intro h
    simp [processOne, h]
  · intro st' d h hd
    unfold processOne at h
    split at h
    · cases h
      exact Or.inl hd
    · next r hm =>
        have hsome : (mapGet? results item.domain).isSome = true := by
          rw [hm]
          rfl
        have hchk : st'.checked = setAdd st.checked item.domain := by
          split at h
          · split at h
            · cases h
              rfl
            · exact (trySave_ok h).1
          · cases h
            rfl
          · cases h
            rfl
        rw [hchk] at hd
        rcases mem_setAdd_iff.1 hd with h1 | h1
        · exact Or.inl h1
        · exact Or.inr ⟨h1, hsome⟩

theorem C10_unkeyed_domain_untouched_witness :
    processOne cfgBatch1 okSaves [] "t0" stZZ itemAb = .ok stZZ :=
  (C10_unkeyed_domain_untouched cfgBatch1 okSaves [] "t0" stZZ itemAb).1 rfl

end DomainRadar
